import Mathlib

/-!
Shallow embedding of the Breathe Audio Elevate 6.6 serial integration
(`serial_manager.py`, `__init__.py`) and proofs about its frame buffer,
message parser, command dispatcher, connection supervisor and device facade.

Bytes are modelled as `Nat` (values 0..255), Python `str` as `String` /
`List Char`, Python dicts of typed attributes as fixed-shape records of
`Option` fields (a key is present iff the field is `some`).
-/

/-! ## Python string helpers -/

/-- Characters below 128 that Python's `str.strip()` removes
(ASCII whitespace plus the separator control characters 0x1c–0x1f). -/
def pyIsSpace (c : Char) : Bool :=
  c = ' ' || c = '\t' || c = '\n' || c = '\r' || c = '\x0b' || c = '\x0c' ||
    (28 ≤ c.toNat && c.toNat ≤ 31)

/-- Python `str.strip()`. -/
def pyStrip (s : List Char) : List Char :=
  ((s.dropWhile pyIsSpace).reverse.dropWhile pyIsSpace).reverse

/-- Python `str.upper()` (ASCII case mapping suffices for the protocol charset). -/
def pyUpper (s : List Char) : List Char := s.map Char.toUpper

/-- Python `pat in s` substring test. -/
def hasSub (pat : List Char) : List Char → Bool
  | [] => pat.isPrefixOf ([] : List Char)
  | c :: rest => pat.isPrefixOf (c :: rest) || hasSub pat rest

/-- Python `text.replace("##", "#")`: left-to-right, non-overlapping. -/
def collapseHash : List Char → List Char
  | '#' :: '#' :: rest => '#' :: collapseHash rest
  | c :: rest => c :: collapseHash rest
  | [] => []

/-- Python `rest.split(",")` (keeps empty parts). -/
def splitComma : List Char → List (List Char)
  | [] => [[]]
  | c :: rest =>
    if c = ',' then [] :: splitComma rest
    else
      match splitComma rest with
      | [] => [[c]]
      | t :: ts => (c :: t) :: ts

def digitVal (c : Char) : Nat := c.toNat - 48

def digitsToNat (s : List Char) : Nat := s.foldl (fun a c => a * 10 + digitVal c) 0

/-- Python `int(s)` on the tokens this protocol produces: optional surrounding
whitespace, one optional sign, then a nonempty digit run; anything else raises
`ValueError`, modelled as `none` (digit-group underscores are not modelled). -/
def pyInt? (s : List Char) : Option Int :=
  match pyStrip s with
  | '+' :: ds => if !ds.isEmpty && ds.all Char.isDigit then some (digitsToNat ds) else none
  | '-' :: ds => if !ds.isEmpty && ds.all Char.isDigit then some (-(digitsToNat ds : Int)) else none
  | ds => if !ds.isEmpty && ds.all Char.isDigit then some (digitsToNat ds) else none

/-! ## Message parser (`SerialMessageParser.parse_state`) -/

/-- The state dictionary `parse_state` builds: exactly the keys that
`serial_manager.py` can set (`zone`, `power`, `volume`, `mute`, `source`,
`bass`, `treble`, `balance`).  A field is `some v` iff the dict has the key. -/
structure ZoneState where
  zone : Option Nat := none
  power : Option Bool := none
  volume : Option Int := none
  mute : Option Bool := none
  source : Option Int := none
  bass : Option Int := none
  treble : Option Int := none
  balance : Option Int := none
deriving DecidableEq

/-- The empty dict `{}`. -/
def ZoneState.empty : ZoneState := {}

/-- Zone extraction (lines 81–88): `Z` followed by 1–2 digits (greedy), else
exactly two leading digits; returns the zone and the remaining text. -/
def zoneOf (text : List Char) : Option Nat × List Char :=
  match text with
  | 'Z' :: rest =>
    (match rest with
     | d1 :: d2 :: tail =>
       if d1.isDigit then
         if d2.isDigit then (some (digitVal d1 * 10 + digitVal d2), tail)
         else (some (digitVal d1), d2 :: tail)
       else (none, 'Z' :: rest)
     | [d1] => if d1.isDigit then (some (digitVal d1), []) else (none, ['Z', d1])
     | [] => (none, ['Z']))
  | c1 :: c2 :: tail =>
    if c1.isDigit && c2.isDigit then (some (digitVal c1 * 10 + digitVal c2), tail)
    else (none, text)
  | t => (none, t)

/-- One iteration of the token loop (lines 98–133): strip, uppercase, then
dispatch on the three-letter prefixes PWR/VOL/MUT/SRC/BAS/TRE/BAL; any other
token (including GRP and the party-mode family) falls through unchanged. -/
def applyToken (st : ZoneState) (token : List Char) : ZoneState :=
  let part := pyUpper (pyStrip token)
  if part.isEmpty then st
  else if (['P', 'W', 'R'] : List Char).isPrefixOf part then
    { st with power := some (part.drop 3 = ['O', 'N']) }
  else if (['V', 'O', 'L'] : List Char).isPrefixOf part then
    let volStr := part.drop 3
    let volStr :=
      if (['+'] : List Char).isPrefixOf volStr || (['-'] : List Char).isPrefixOf volStr
      then volStr.drop 1 else volStr
    match pyInt? volStr with
    | some v => { st with volume := some v }
    | none => st
  else if (['M', 'U', 'T'] : List Char).isPrefixOf part then
    { st with mute := some (part.drop 3 = ['O', 'N']) }
  else if (['S', 'R', 'C'] : List Char).isPrefixOf part then
    match pyInt? (part.drop 3) with
    | some v => { st with source := some v }
    | none => st
  else if (['B', 'A', 'S'] : List Char).isPrefixOf part then
    match pyInt? ((part.drop 3).filter (fun c => c != '+')) with
    | some v => { st with bass := some v }
    | none => st
  else if (['T', 'R', 'E'] : List Char).isPrefixOf part then
    match pyInt? ((part.drop 3).filter (fun c => c != '+')) with
    | some v => { st with treble := some v }
    | none => st
  else if (['B', 'A', 'L'] : List Char).isPrefixOf part then
    match pyInt? ((part.drop 3).filter (fun c => c != '+')) with
    | some v => { st with balance := some v }
    | none => st
  else st

/-- Lines 71–134 of `parse_state`: build the state dict from a frame. -/
def parseFields (message : String) (last_zone : Option Nat) : ZoneState :=
  let text := pyStrip message.toList
  let text := if hasSub ['#', '#'] text then collapseHash text else text
  -- strip a single response marker character "#"
  let text := if (['#'] : List Char).isPrefixOf text then text.drop 1 else text
  let zr := zoneOf text
  let rest := zr.2
  -- zone-less frames with a power token are attributed to the last commanded zone
  let zone :=
    if zr.1.isNone && last_zone.isSome && hasSub ['P', 'W', 'R'] (pyUpper rest)
    then last_zone else zr.1
  let tokens := if hasSub [','] rest then splitComma rest else [rest]
  tokens.foldl applyToken { zone := zone }

/-- `SerialMessageParser.parse_state` (lines 63–135): `None` for an empty
message, otherwise the built dict, or `None` when the dict stayed empty
(`return state or None`). -/
def parse_state (message : String) (last_zone : Option Nat) : Option ZoneState :=
  if message.isEmpty then none
  else if parseFields message last_zone = ZoneState.empty then none
  else some (parseFields message last_zone)

/-! ## Frame buffer (`SerialMessageParser.feed_data`)

The terminator is `COMMAND_TERMINATOR = "\r"`, the single byte 13. -/

/-- The `while` loop of `feed_data` (lines 52–57): repeatedly cut the buffer
at the first terminator byte; returns the raw (pre-decode, pre-trim) segments
in arrival order and the leftover bytes after the last terminator. -/
def splitCR : List Nat → List (List Nat) × List Nat
  | [] => ([], [])
  | b :: rest =>
    let p := splitCR rest
    if b = 13 then ([] :: p.1, p.2)
    else
      match p.1 with
      | [] => ([], b :: p.2)
      | s :: ss => ((b :: s) :: ss, p.2)

/-- Python `bytes.decode("ascii", errors="ignore")`: bytes ≥ 128 are dropped. -/
def decodeAscii (bs : List Nat) : List Char :=
  bs.filterMap (fun b => if b < 128 then some (Char.ofNat b) else none)

/-- Lines 58–60: decode a raw segment, trim it, and drop it if blank. -/
def renderFrame (seg : List Nat) : Option String :=
  let t := pyStrip (decodeAscii seg)
  if t.isEmpty then none else some (String.mk t)

/-- `SerialMessageParser.feed_data` (lines 48–61) as a pure function of the
buffered bytes and the newly received chunk: the produced frames and the new
buffer contents. -/
def feed_data (buffer data : List Nat) : List String × List Nat :=
  let p := splitCR (buffer ++ data)
  (p.1.filterMap renderFrame, p.2)

/-- Successive `feed_data` calls, at the raw-segment level: the pre-trim
extents produced by each call, concatenated in order, and the final buffer. -/
def feedAll (buffer : List Nat) : List (List Nat) → List (List Nat) × List Nat
  | [] => ([], buffer)
  | c :: cs =>
    let p := splitCR (buffer ++ c)
    let q := feedAll p.2 cs
    (p.1 ++ q.1, q.2)

/-- A Lean string as the byte list the device would send. -/
def asBytes (s : String) : List Nat := s.toList.map Char.toNat

/-! ## Device facade (`BreatheAudioData` in `__init__.py`)

`self._zone_data : Dict[int, Dict]` is modelled as `Nat → Option ZoneState`. -/

/-- Python `old.update(upd)`: keys present in `upd` overwrite, keys absent
in `upd` keep their previous value. -/
def mergeState (old upd : ZoneState) : ZoneState :=
  { zone := upd.zone <|> old.zone,
    power := upd.power <|> old.power,
    volume := upd.volume <|> old.volume,
    mute := upd.mute <|> old.mute,
    source := upd.source <|> old.source,
    bass := upd.bass <|> old.bass,
    treble := upd.treble <|> old.treble,
    balance := upd.balance <|> old.balance }

/-- `BreatheAudioData._handle_zone_update` (lines 158–163): start from `{}`
when the zone is new, then `dict.update` the incoming state into it. -/
def handle_zone_update (zones : Nat → Option ZoneState) (zone : Nat) (state : ZoneState) :
    Nat → Option ZoneState :=
  fun z => if z = zone then some (mergeState ((zones zone).getD ZoneState.empty) state)
           else zones z

/-- `BreatheAudioData.async_refresh_zone` (lines 215–223): if the full-status
query returned a state, assign it outright (`self._zone_data[zone] = state`);
a `None`/failed query leaves the map unchanged. -/
def async_refresh_zone (zones : Nat → Option ZoneState) (zone : Nat)
    (queried : Option ZoneState) : Nat → Option ZoneState :=
  match queried with
  | some st => fun z => if z = zone then some st else zones z
  | none => zones

/-! ## Command dispatcher (`SerialConnectionManager.send_command`)

The two suspension points (waiting for availability, waiting for the
response future) are resolved by an explicit environment. -/

/-- Manager state touched by `send_command`. -/
structure SMState where
  lastZone : Option Nat := none
  available : Bool := false
  hasProto : Bool := false
  waiter : Option Unit := none
  writes : List String := []
deriving DecidableEq

/-- Oracle for the two awaits inside `send_command`: the result of
`_wait_for_available` and the value (if any) the response future is resolved
with before the timeout; `none` means the wait times out. -/
structure SendEnv where
  availAfterWait : Bool
  response : Option ZoneState
deriving DecidableEq

/-- How a `send_command` call ends: a normal `return` value, or an
`asyncio.TimeoutError` raised out of `asyncio.wait_for` propagating to the
caller (there is no handler for it in `send_command`). -/
inductive SendOutcome where
  | ret : Option ZoneState → SendOutcome
  | timedOut : SendOutcome
deriving DecidableEq

/-- `SerialConnectionManager.send_command` (lines 235–272). -/
def send_command (s : SMState) (env : SendEnv) (command : String)
    (zone : Option Nat) (waitForResp : Bool) : SendOutcome × SMState :=
  -- `if zone is not None: self._last_commanded_zone = zone`
  -- (before the lock, the availability check and the write)
  let s := match zone with
    | some z => { s with lastZone := some z }
    | none => s
  -- `if not self._available:` wait up to `timeout` for availability
  let connected := if s.available then true else env.availAfterWait
  if !connected then (.ret none, s)          -- dropped, `return None`
  else if !s.hasProto then (.ret none, s)    -- protocol missing, `return None`
  else
    -- register the one-shot waiter, then write `command + "\r"`
    let s := if waitForResp then { s with waiter := some () } else s
    let s := { s with writes := s.writes ++ [command ++ "\r"] }
    if !waitForResp then (.ret none, s)      -- fire-and-forget
    else
      match env.response with
      | some st => (.ret (some st), { s with waiter := none })
      | none => (.timedOut, { s with waiter := none })  -- `finally` clears the waiter

/-! ## Connection supervisor (`_connection_loop`, `_set_available`)

Delays are rationals (seconds); the jitter drawn by `random.uniform(0, 0.25)`
is an arbitrary value in `[0, 1/4)`. -/

/-- One iteration of `_connection_loop` (lines 292–328): on a successful
connect the backoff is reset to 0.5 before anything else; the iteration then
sleeps `min(backoff + jitter, 30.0)` and doubles the backoff capped at 30.
Returns (sleep duration, next backoff). -/
def connectionIteration (backoff : ℚ) (connectOk : Bool) (jitter : ℚ) : ℚ × ℚ :=
  let b := if connectOk then 1/2 else backoff
  (min (b + jitter) 30, min (b * 2) 30)

/-- Backoff values along a run of consecutive failed connect attempts
starting from backoff `b0`, with jitter sequence `js`. -/
def failBackoff (b0 : ℚ) (js : ℕ → ℚ) : ℕ → ℚ
  | 0 => b0
  | n + 1 => (connectionIteration (failBackoff b0 js n) false (js n)).2

/-- The retry delay slept after the `n`-th consecutive failed attempt. -/
def failDelay (b0 : ℚ) (js : ℕ → ℚ) (n : ℕ) : ℚ :=
  (connectionIteration (failBackoff b0 js n) false (js n)).1

/-- Backoff values reachable in `_connection_loop`: the initial / post-reset
floor 0.5, closed under the doubling-with-cap update. -/
inductive ReachBackoff : ℚ → Prop
  | base : ReachBackoff (1/2)
  | step : ∀ b, ReachBackoff b → ReachBackoff (min (b * 2) 30)

/-- `_set_available` (lines 353–361) applied to a list of requested values:
the list of payloads the availability callback is invoked with.  A request
equal to the stored flag returns early and invokes nothing. -/
def runAvail (cur : Bool) : List Bool → List Bool
  | [] => []
  | r :: rs => if r = cur then runAvail cur rs else r :: runAvail r rs

/-! ## Frame-buffer lemmas -/

theorem splitCR_no_term : ∀ {xs : List Nat}, 13 ∉ xs → splitCR xs = ([], xs) := by
  intro xs
  induction xs with
  | nil => intro _; rfl
  | cons b rest ih =>
    intro h
    have hb : ¬ b = 13 := by
      intro hb
      exact h (by simp [hb])
    have hr : 13 ∉ rest := fun hr => h (List.mem_cons_of_mem _ hr)
    simp [splitCR, hb, ih hr]

theorem splitCR_fst_nil : ∀ {xs : List Nat}, (splitCR xs).1 = [] → 13 ∉ xs := by
  intro xs
  induction xs with
  | nil => intro _; simp
  | cons b rest ih =>
    by_cases hb : b = 13
    · intro h
      exfalso
      simp [splitCR, hb] at h
    · rcases hfst : (splitCR rest).1 with _ | ⟨s, ss⟩
      · intro _ hmem
        rcases List.mem_cons.mp hmem with h1 | h2
        · exact hb h1.symm
        · exact ih hfst h2
      · intro h
        exfalso
        simp [splitCR, hb, hfst] at h

theorem splitCR_snd_no_term : ∀ xs : List Nat, 13 ∉ (splitCR xs).2 := by
  intro xs
  induction xs with
  | nil => simp [splitCR]
  | cons b rest ih =>
    by_cases hb : b = 13
    · simpa [splitCR, hb] using ih
    · rcases hfst : (splitCR rest).1 with _ | ⟨s, ss⟩
      · have hsnd : (splitCR (b :: rest)).2 = b :: (splitCR rest).2 := by
          simp [splitCR, hb, hfst]
        rw [hsnd]
        simp only [List.mem_cons, not_or]
        exact ⟨fun h => hb h.symm, ih⟩
      · simpa [splitCR, hb, hfst] using ih

theorem splitCR_append : ∀ (xs ys : List Nat),
    splitCR (xs ++ ys)
      = ((splitCR xs).1 ++ (splitCR ((splitCR xs).2 ++ ys)).1,
         (splitCR ((splitCR xs).2 ++ ys)).2) := by
  intro xs ys
  induction xs with
  | nil => simp [splitCR]
  | cons b rest ih =>
    by_cases hb : b = 13
    · simp [splitCR, hb, ih]
    · rcases hfst : (splitCR rest).1 with _ | ⟨s, ss⟩
      · have h2 : (splitCR rest).2 = rest := by
          rw [splitCR_no_term (splitCR_fst_nil hfst)]
        have hbrest : splitCR (b :: rest) = ([], b :: rest) := by
          simp [splitCR, hb, hfst, h2]
        rw [List.cons_append, hbrest]
        simp [List.cons_append]
      · simp [splitCR, hb, hfst, ih]

theorem splitCR_join : ∀ xs : List Nat,
    (splitCR xs).1.flatten ++ (splitCR xs).2 = xs.filter (fun b => b != 13) := by
  intro xs
  induction xs with
  | nil => rfl
  | cons b rest ih =>
    by_cases hb : b = 13
    · simpa [splitCR, hb] using ih
    · rcases hfst : (splitCR rest).1 with _ | ⟨s, ss⟩
      · have hnt := splitCR_fst_nil hfst
        have h0 : splitCR rest = ([], rest) := splitCR_no_term hnt
        have hfil : rest.filter (fun b => b != 13) = rest := by
          rw [List.filter_eq_self]
          intro a ha
          have ha13 : a ≠ 13 := fun h => hnt (h ▸ ha)
          simpa using ha13
        simp [splitCR, hb, hfst, h0, hfil]
      · rw [hfst] at ih
        have hred : splitCR (b :: rest) = ((b :: s) :: ss, (splitCR rest).2) := by
          simp [splitCR, hb, hfst]
        rw [hred]
        simp only [List.flatten, List.cons_append, List.append_assoc] at ih ⊢
        simp [List.filter_cons, hb, ← ih]

theorem splitCR_suffix : ∀ xs : List Nat,
    ∃ pre, xs = pre ++ (splitCR xs).2 ∧ (pre = [] ∨ ∃ q, pre = q ++ [13]) := by
  intro xs
  induction xs with
  | nil => exact ⟨[], rfl, Or.inl rfl⟩
  | cons b rest ih =>
    obtain ⟨pre, hpre, hend⟩ := ih
    by_cases hb : b = 13
    · refine ⟨b :: pre, ?_, Or.inr ?_⟩
      · have : (splitCR (b :: rest)).2 = (splitCR rest).2 := by
          simp [splitCR, hb]
        rw [this, List.cons_append, ← hpre]
      · rcases hend with h | ⟨q, hq⟩
        · subst h
          exact ⟨[], by simp [hb]⟩
        · subst hq
          exact ⟨b :: q, by simp [hb]⟩
    · rcases hfst : (splitCR rest).1 with _ | ⟨s, ss⟩
      · have h0 : splitCR rest = ([], rest) := splitCR_no_term (splitCR_fst_nil hfst)
        refine ⟨[], ?_, Or.inl rfl⟩
        simp [splitCR, hb, hfst, h0]
      · rcases hend with h | ⟨q, hq⟩
        · exfalso
          subst h
          simp only [List.nil_append] at hpre
          have h13 : 13 ∈ rest := by
            by_contra hno
            rw [splitCR_no_term hno] at hfst
            simp at hfst
          exact splitCR_snd_no_term rest (hpre ▸ h13)
        · refine ⟨b :: pre, ?_, Or.inr ⟨b :: q, by simp [hq]⟩⟩
          have : (splitCR (b :: rest)).2 = (splitCR rest).2 := by
            simp [splitCR, hb, hfst]
          rw [this, List.cons_append, ← hpre]

theorem feedAll_no_term_eq : ∀ (chunks : List (List Nat)) (buffer : List Nat),
    13 ∉ buffer → feedAll buffer chunks = splitCR (buffer ++ chunks.flatten) := by
  intro chunks
  induction chunks with
  | nil =>
    intro buffer h
    simp [feedAll, splitCR_no_term h]
  | cons c cs ih =>
    intro buffer h
    have hsnd := splitCR_snd_no_term (buffer ++ c)
    have happ : buffer ++ (c :: cs).flatten = (buffer ++ c) ++ cs.flatten := by
      simp [List.append_assoc]
    rw [happ, splitCR_append (buffer ++ c) cs.flatten]
    simp [feedAll, ih _ hsnd]

theorem feedAll_nil : ∀ chunks : List (List Nat), feedAll [] chunks = splitCR chunks.flatten := by
  intro chunks
  simpa using feedAll_no_term_eq chunks [] (by simp)

/-! ## Supervisor lemmas -/

theorem reachBackoff_bounds : ∀ {b : ℚ}, ReachBackoff b → 1/2 ≤ b ∧ b ≤ 30 := by
  intro b h
  induction h with
  | base => norm_num
  | step b' hb ih =>
    refine ⟨le_min ?_ ?_, min_le_right _ _⟩
    · linarith [ih.1]
    · norm_num

theorem failBackoff_reach (b0 : ℚ) (js : ℕ → ℚ) (h : ReachBackoff b0) :
    ∀ n, ReachBackoff (failBackoff b0 js n) := by
  intro n
  induction n with
  | zero => exact h
  | succ n ih => exact ReachBackoff.step _ ih

theorem delay_mono_step (b j j' : ℚ) (hb : 1/2 ≤ b) (_hj0 : 0 ≤ j) (hj1 : j < 1/4)
    (hj0' : 0 ≤ j') : min (b + j) 30 ≤ min (min (b * 2) 30 + j') 30 := by
  rcases le_total (b * 2) 30 with h | h
  · rw [min_eq_left h]
    refine le_min ?_ (min_le_right _ _)
    calc min (b + j) 30 ≤ b + j := min_le_left _ _
    _ ≤ b * 2 + j' := by linarith
  · rw [min_eq_right h]
    have h30 : min ((30 : ℚ) + j') 30 = 30 := min_eq_right (by linarith)
    rw [h30]
    exact min_le_right _ _

theorem runAvail_chain : ∀ (reqs : List Bool) (cur : Bool),
    List.Chain' (· ≠ ·) (runAvail cur reqs) ∧
      ∀ x ∈ (runAvail cur reqs).head?, x ≠ cur := by
  intro reqs
  induction reqs with
  | nil => intro cur; simp [runAvail]
  | cons r rs ih =>
    intro cur
    by_cases h : r = cur
    · simpa [runAvail, h] using ih cur
    · have hrw : runAvail cur (r :: rs) = r :: runAvail r rs := by
        simp [runAvail, h]
      obtain ⟨hc, hh⟩ := ih r
      rw [hrw]
      constructor
      · rw [List.chain'_cons']
        exact ⟨fun x hx => ((hh x hx).symm : r ≠ x), hc⟩
      · intro x hx
        simp only [List.head?_cons, Option.mem_def, Option.some.injEq] at hx
        rw [← hx]
        exact h

/-! ## Claim C1 -/

/-- C1: the claim says frames matching a broadcast keyword (ALLOFF, EXTMON,
EXTMOFF) parse to a BroadcastEvent, in particular
`parse("#ALLOFF", None) = {broadcast: "alloff"}`.  Evaluating
`SerialMessageParser.parse_state` at these frames shows it has no broadcast
handling at all and returns `None` for each of them, contradicting the claim
and the repository's own tests (`test_parser_handles_alloff_broadcast`,
`test_parser_handles_extmon_broadcast`, `test_parser_handles_extmoff_broadcast`). -/
theorem C1_no_broadcast_events :
    parse_state "#ALLOFF" none = none ∧
    parse_state "#EXTMON" none = none ∧
    parse_state "#EXTMOFF" none = none := by
  refine ⟨by decide, by decide, by decide⟩

/-! ## Claim C2 -/

/-- C2: the claim says `parse("#Z01PWRON,SRC3,GRP0,VOL-45,PMST", None)` yields
exactly `{zone:1, power:true, source:3, group:0, volume:45, party_mode:"MST"}`.
Evaluating `parse_state` shows the code decodes only zone, power, source and
volume: the GRP and party-mode (P-family) tokens fall through the token
dispatch unrecognized, so no `group` or `party_mode` key is ever produced,
contradicting the claim and the repository's own test
`test_parser_handles_vol_negative_format`. -/
theorem C2_composite_frame_eval :
    parse_state "#Z01PWRON,SRC3,GRP0,VOL-45,PMST" none
      = some { zone := some 1, power := some true, volume := some 45, source := some 3 } := by
  decide

/-! ## Claim C8 -/

/-- C8: `parse_state` returns `None` for every frame whose decoded state dict
stays empty (no zone, no decoded field — the code has no broadcast events to
yield), and in particular the bare error marker `"#?"` parses to `None`. -/
theorem C8_empty_parse_none :
    (∀ (m : String) (z : Option Nat) (s : ZoneState),
        parse_state m z = some s → s ≠ ZoneState.empty) ∧
    parse_state "#?" none = none := by
  constructor
  · intro m z s h
    unfold parse_state at h
    split at h
    · exact absurd h (by simp)
    · split at h
      · exact absurd h (by simp)
      · rename_i hne
        rw [Option.some.injEq] at h
        rw [← h]
        exact hne
  · decide

/-- Witness for C8 at a concrete input with a nonempty parse result. -/
theorem C8_empty_parse_none_witness :
    parse_state "#Z03PWRON" none = some { zone := some 3, power := some true } ∧
    ({ zone := some 3, power := some true } : ZoneState) ≠ ZoneState.empty := by
  constructor
  · decide
  · exact C8_empty_parse_none.1 "#Z03PWRON" none _ (by decide)

/-! ## Claim C5 -/

/-- C5 counterexample: feeding the single unterminated chunk `b"A"` ([65])
produces no frames at all, so the concatenation of the produced frames'
pre-trim extents (empty) differs from the input with terminator bytes removed
([65]) — the claim's equality fails whenever the cumulative input does not end
with a terminator. -/
theorem C5_unterminated_cex :
    (feedAll [] [[65]]).1.flatten
      ≠ ([[65]] : List (List Nat)).flatten.filter (fun b => b != 13) := by
  decide

/-- C5 (amended): for every chunking, the segments and leftover buffer equal
those of a single feed of the whole input; the concatenation of all produced
pre-trim extents FOLLOWED BY the retained buffer equals the input with
terminator bytes removed; and the concrete example yields the frames
`["#Z01PWRON", "#Z02PWROFF"]` in arrival order. -/
theorem C5_chunking_amended :
    (∀ chunks : List (List Nat), feedAll [] chunks = splitCR chunks.flatten) ∧
    (∀ chunks : List (List Nat),
      (feedAll [] chunks).1.flatten ++ (feedAll [] chunks).2
        = chunks.flatten.filter (fun b => b != 13)) ∧
    feed_data [] (asBytes "#Z01PWRON\r#Z02PWRO") = (["#Z01PWRON"], asBytes "#Z02PWRO") ∧
    feed_data (asBytes "#Z02PWRO") (asBytes "FF\r") = (["#Z02PWROFF"], []) := by
  refine ⟨feedAll_nil, fun chunks => ?_, by decide, by decide⟩
  rw [feedAll_nil]
  exact splitCR_join chunks.flatten

/-! ## Claim C9 -/

/-- C9: after any `feed_data` call the buffer holds no terminator byte; after
any sequence of feeds the buffer is exactly the bytes after the last
terminator of the cumulative input (the part before it ends with a
terminator); and input containing no terminator accumulates in the buffer
without producing any segment. -/
theorem C9_buffer_invariant :
    (∀ buffer data : List Nat, 13 ∉ (feed_data buffer data).2) ∧
    (∀ chunks : List (List Nat),
      13 ∉ (feedAll [] chunks).2 ∧
      (∃ pre, chunks.flatten = pre ++ (feedAll [] chunks).2 ∧
        (pre = [] ∨ ∃ q, pre = q ++ [13])) ∧
      (13 ∉ chunks.flatten →
        (feedAll [] chunks).1 = [] ∧ (feedAll [] chunks).2 = chunks.flatten)) := by
  constructor
  · intro buffer data
    simpa [feed_data] using splitCR_snd_no_term (buffer ++ data)
  · intro chunks
    rw [feedAll_nil]
    refine ⟨splitCR_snd_no_term _, splitCR_suffix _, fun h => ?_⟩
    rw [splitCR_no_term h]
    exact ⟨rfl, rfl⟩

/-- Witness for C9 at the concrete terminator-free input `[65, 66]`. -/
theorem C9_buffer_invariant_witness :
    (feedAll [] [[65, 66]]).1 = [] ∧
    (feedAll [] [[65, 66]]).2 = ([[65, 66]] : List (List Nat)).flatten :=
  (C9_buffer_invariant.2 [[65, 66]]).2.2 (by decide)

/-! ## Claim C3 -/

/-- Stored zone map with zone 1 holding `{volume: 10}`. -/
def c3Stored : Nat → Option ZoneState :=
  handle_zone_update (fun _ => none) 1 { volume := some 10 }

/-- A full-status query result carrying no `volume` key. -/
def c3Update : ZoneState := { zone := some 1, power := some true }

/-- C3 counterexample: zone 1 holds `{volume: 10}`; a full-status zone refresh
whose queried state lacks the `volume` attribute wholesale-replaces the stored
mapping (`self._zone_data[zone] = state`), so the previously stored volume is
lost instead of kept — refuting "never wholesale-replaces ... including
updates produced by a full-status zone refresh". -/
theorem C3_refresh_replaces_cex :
    (c3Stored 1).map ZoneState.volume = some (some 10) ∧
    c3Update.volume = none ∧
    (async_refresh_zone c3Stored 1 (some c3Update) 1).map ZoneState.volume = some none := by
  refine ⟨by decide, by decide, by decide⟩

/-- C3 (amended): push updates delivered through `_handle_zone_update` are
merged field-by-field — every attribute absent from the update keeps its
previous stored value, and other zones are untouched — but
`async_refresh_zone` wholesale-replaces the stored mapping for the zone with
the queried state. -/
theorem C3_merge_amended :
    ∀ (zones : Nat → Option ZoneState) (zone : Nat) (st : ZoneState),
      handle_zone_update zones zone st zone
        = some (mergeState ((zones zone).getD ZoneState.empty) st) ∧
      (∀ z, z ≠ zone → handle_zone_update zones zone st z = zones z) ∧
      (st.zone = none → (mergeState ((zones zone).getD ZoneState.empty) st).zone
        = ((zones zone).getD ZoneState.empty).zone) ∧
      (st.power = none → (mergeState ((zones zone).getD ZoneState.empty) st).power
        = ((zones zone).getD ZoneState.empty).power) ∧
      (st.volume = none → (mergeState ((zones zone).getD ZoneState.empty) st).volume
        = ((zones zone).getD ZoneState.empty).volume) ∧
      (st.mute = none → (mergeState ((zones zone).getD ZoneState.empty) st).mute
        = ((zones zone).getD ZoneState.empty).mute) ∧
      (st.source = none → (mergeState ((zones zone).getD ZoneState.empty) st).source
        = ((zones zone).getD ZoneState.empty).source) ∧
      (st.bass = none → (mergeState ((zones zone).getD ZoneState.empty) st).bass
        = ((zones zone).getD ZoneState.empty).bass) ∧
      (st.treble = none → (mergeState ((zones zone).getD ZoneState.empty) st).treble
        = ((zones zone).getD ZoneState.empty).treble) ∧
      (st.balance = none → (mergeState ((zones zone).getD ZoneState.empty) st).balance
        = ((zones zone).getD ZoneState.empty).balance) ∧
      (∀ q, async_refresh_zone zones zone (some q) zone = some q) := by
  intro zones zone st
  refine ⟨by simp [handle_zone_update], fun z hz => by simp [handle_zone_update, hz],
    ?_, ?_, ?_, ?_, ?_, ?_, ?_, ?_, fun q => by simp [async_refresh_zone]⟩
  all_goals intro h
  all_goals simp [mergeState, h]

/-- Witness for C3 at the concrete stored map and update above. -/
theorem C3_merge_amended_witness :
    handle_zone_update c3Stored 1 c3Update 1
      = some (mergeState ((c3Stored 1).getD ZoneState.empty) c3Update) ∧
    (mergeState ((c3Stored 1).getD ZoneState.empty) c3Update).volume
      = ((c3Stored 1).getD ZoneState.empty).volume ∧
    handle_zone_update c3Stored 1 c3Update 2 = c3Stored 2 ∧
    async_refresh_zone c3Stored 1 (some c3Update) 1 = some c3Update := by
  obtain ⟨h1, h2, _, _, hvol, _, _, _, _, _, hrefresh⟩ :=
    C3_merge_amended c3Stored 1 c3Update
  exact ⟨h1, hvol (by decide), h2 2 (by decide), hrefresh c3Update⟩

/-! ## Claim C4 -/

/-- A connected manager state: available, protocol present, no waiter. -/
def c4State : SMState :=
  { lastZone := none, available := true, hasProto := true, waiter := none, writes := [] }

/-- Environment in which no frame parses into a ZoneState before the timeout. -/
def c4Env : SendEnv := { availAfterWait := true, response := none }

/-- C4 counterexample: a response-awaited `send_command` whose timeout window
elapses with no parsed frame ends with `asyncio.TimeoutError` propagating out
of `asyncio.wait_for` to the caller (`SendOutcome.timedOut` — there is no
handler in `send_command`), not with a returned Timeout-failure value; the
`finally` block does clear the waiter. -/
theorem C4_timeout_raises_cex :
    (send_command c4State c4Env "*Z01CONSR" (some 1) true).1 = SendOutcome.timedOut ∧
    (send_command c4State c4Env "*Z01CONSR" (some 1) true).2.waiter = none := by
  refine ⟨by decide, by decide⟩

/-- C4 (amended): for every call to `send_command` with `wait_for_response`
true on an available connection with a live protocol, when no frame parsed
into a ZoneState arrives within the timeout window the pending one-shot
waiter is cleared, but the call raises `asyncio.TimeoutError` to the caller
rather than returning a Timeout-failure value. -/
theorem C4_timeout_amended :
    ∀ (s : SMState) (env : SendEnv) (cmd : String) (z : Option Nat),
      s.available = true → s.hasProto = true → env.response = none →
      (send_command s env cmd z true).1 = SendOutcome.timedOut ∧
      (send_command s env cmd z true).2.waiter = none := by
  intro s env cmd z hav hp hr
  cases z with
  | none => simp [send_command, hav, hp, hr]
  | some zz => simp [send_command, hav, hp, hr]

/-- Witness for C4 at a concrete connected state and timing-out environment. -/
theorem C4_timeout_amended_witness :
    (send_command c4State c4Env "*Z01CONSR" none true).1 = SendOutcome.timedOut ∧
    (send_command c4State c4Env "*Z01CONSR" none true).2.waiter = none :=
  C4_timeout_amended c4State c4Env "*Z01CONSR" none rfl rfl rfl

/-! ## Claim C10 -/

/-- C10: a `send_command` call with a zone always overwrites
LastCommandedZone with that zone — the assignment happens before the
availability check and before any write, so even a command dropped as
NotConnected (returning `None`, with nothing written to the transport) still
records the zone used to attribute later zone-less frames. -/
theorem C10_last_zone_recorded :
    ∀ (s : SMState) (env : SendEnv) (cmd : String) (z : Nat) (w : Bool),
      (send_command s env cmd (some z) w).2.lastZone = some z ∧
      (s.available = false → env.availAfterWait = false →
        (send_command s env cmd (some z) w).1 = SendOutcome.ret none ∧
        (send_command s env cmd (some z) w).2.writes = s.writes) := by
  intro s env cmd z w
  rcases s with ⟨lz, av, hp, wt, wr⟩
  rcases env with ⟨aw, resp⟩
  cases av <;> cases hp <;> cases w <;> cases aw <;> rcases resp with _ | st <;>
    simp [send_command]

/-- Manager state that is not available. -/
def c10State : SMState :=
  { lastZone := some 7, available := false, hasProto := true, waiter := none, writes := [] }

/-- Environment in which availability never arrives within the wait window. -/
def c10Env : SendEnv := { availAfterWait := false, response := none }

/-- Witness for C10: a command to zone 3 dropped as NotConnected still
overwrites LastCommandedZone (which previously held 7) and writes nothing. -/
theorem C10_last_zone_recorded_witness :
    (send_command c10State c10Env "*Z03on" (some 3) false).2.lastZone = some 3 ∧
    (send_command c10State c10Env "*Z03on" (some 3) false).1 = SendOutcome.ret none ∧
    (send_command c10State c10Env "*Z03on" (some 3) false).2.writes = c10State.writes := by
  obtain ⟨h1, h2⟩ := C10_last_zone_recorded c10State c10Env "*Z03on" 3 false
  exact ⟨h1, (h2 rfl rfl).1, (h2 rfl rfl).2⟩

/-! ## Claim C6 -/

/-- C6: along any run of consecutive failed connect attempts starting from a
reachable backoff value, with each jitter an arbitrary value in [0, 1/4): the
successive retry delays are non-decreasing and capped at 30 (hence at most
30 plus the jitter), the backoff doubles after each wait capped at 30, and a
successful connect behaves exactly as an iteration whose backoff has been
reset to the floor 0.5. -/
theorem C6_backoff_props :
    ∀ (b0 : ℚ) (js : ℕ → ℚ), ReachBackoff b0 → (∀ n, 0 ≤ js n ∧ js n < 1/4) →
      (∀ n, failDelay b0 js n ≤ failDelay b0 js (n + 1)) ∧
      (∀ n, failDelay b0 js n ≤ 30) ∧
      (∀ n, failBackoff b0 js (n + 1) = min (failBackoff b0 js n * 2) 30) ∧
      (∀ (b j : ℚ), connectionIteration b true j = connectionIteration (1/2) false j) := by
  intro b0 js hb hj
  refine ⟨?_, ?_, fun n => rfl, fun b j => rfl⟩
  · intro n
    have hreach := failBackoff_reach b0 js hb n
    have hbound := (reachBackoff_bounds hreach).1
    have hstep := delay_mono_step (failBackoff b0 js n) (js n) (js (n + 1)) hbound
      (hj n).1 (hj n).2 (hj (n + 1)).1
    simp only [failDelay, failBackoff, connectionIteration] at hstep ⊢
    exact hstep
  · intro n
    exact min_le_right (failBackoff b0 js n + js n) (30 : ℚ)

/-- Witness for C6 at the floor backoff with zero jitter. -/
theorem C6_backoff_props_witness :
    failDelay (1/2) (fun _ => 0) 0 ≤ failDelay (1/2) (fun _ => 0) 1 ∧
    failDelay (1/2) (fun _ => 0) 0 ≤ 30 := by
  obtain ⟨h1, h2, _, _⟩ := C6_backoff_props (1/2) (fun _ => 0) ReachBackoff.base
    (fun n => by norm_num)
  exact ⟨h1 0, h2 0⟩

/-! ## Claim C7 -/

/-- C7: the availability callback dedup in `_set_available` guarantees that
over any sequence of requested availability values — in particular the
repeated `False` requests issued by every iteration of the reconnect loop —
consecutive callback invocations always carry different boolean values, and
an invocation happens exactly when the requested value differs from the
stored one. -/
theorem C7_availability_alternates :
    (∀ (cur : Bool) (reqs : List Bool), List.Chain' (· ≠ ·) (runAvail cur reqs)) ∧
    (∀ (cur r : Bool) (rs : List Bool),
      runAvail cur (r :: rs)
        = if r = cur then runAvail cur rs else r :: runAvail r rs) :=
  ⟨fun cur reqs => (runAvail_chain reqs cur).1, fun _ _ _ => rfl⟩
